import Mathlib

/-!
Formal model of data_loader.py: the MySet dataset (train/validation split
computed at construction, per-index record tagging) and the collation
pipeline (pack_time_series, collate_fn).  Machine floats are modelled by
rationals; tensors record the requested dtype symbolically.  External
collaborators (the JSON parser, the numpy generator, torch.tensor) are
modelled from the spec, as marked on each definition.
-/

/-- Element dtypes that appear in the loader; the code always requests
float32. -/
inductive DType where
  | float32
  | float64
deriving DecidableEq

/-- Model of a torch tensor produced by the loader: its inferred shape, its
dtype, and its payload listed along the leading (batch) axis. -/
structure Tensor (α : Type) where
  shape : List Nat
  dtype : DType
  data : List α
deriving DecidableEq

/-- One time step of a series: the six per-feature arrays stored in each
JSON record. -/
structure TimeStep where
  values : List Rat
  masks : List Rat
  deltas : List Rat
  forwards : List Rat
  evals : List Rat
  eval_masks : List Rat
deriving DecidableEq

/-- A parsed JSON-line record before tagging: each of the three required
fields may be absent, since json.loads does not validate them. -/
structure RawRec where
  forward : Option (List TimeStep)
  backward : Option (List TimeStep)
  label : Option Rat
deriving DecidableEq

/-- A record returned by MySet.__getitem__: the parsed fields plus the
is_train tag added by the dataset. -/
structure TaggedRec where
  forward : Option (List TimeStep)
  backward : Option (List TimeStep)
  label : Option Rat
  is_train : Int
deriving DecidableEq

/-- Modelled from the spec: one raw line of the JSON-lines file, abstracted
by its parse outcome — either it fails to parse or it parses to a record
(the parser itself, ujson.loads, is an external collaborator). -/
inductive Line where
  | bad : Line
  | parsed : RawRec → Line
deriving DecidableEq

/-- Modelled from the spec: json.loads on one line — a parse failure
raises, a success returns the parsed record with no field validation. -/
def jsonLoads : Line → Except String RawRec
  | .bad => .error "ValueError"
  | .parsed d => .ok d

/-- Python round(x) with no digit argument: round half to even on the
exact value. -/
def pyRound (q : Rat) : Int :=
  if q - ⌊q⌋ < 1 / 2 then ⌊q⌋
  else if 1 / 2 < q - ⌊q⌋ then ⌊q⌋ + 1
  else if ⌊q⌋ % 2 = 0 then ⌊q⌋ else ⌊q⌋ + 1

/-- Modelled from the spec: one step of the seeded pseudo-random source
keyed by the seed, a 64-bit linear congruential update (the numpy generator
is an external collaborator; what the spec pins is that the stream is a
pure function of the seed). -/
def lcg (s : Nat) : Nat :=
  (6364136223846793005 * s + 1442695040888963407) % 2 ^ 64

/-- Modelled from the spec: draw k distinct elements without replacement —
repeatedly pick a pseudo-random position in the remaining pool and remove
the element picked. -/
def sampleGo : Nat → List Nat → Nat → List Nat
  | 0, _, _ => []
  | k + 1, pool, s =>
    if pool.isEmpty then []
    else
      let s2 := lcg s
      let x := pool.getD (s2 % pool.length) 0
      x :: sampleGo k (pool.erase x) s2

/-- Modelled from the spec: rng.choice(arange(n), size=k, replace=False) —
k distinct indices drawn from [0, n) as a pure function of the seed; numpy
raises ValueError when k exceeds the population size. -/
def rngChoice (seed n k : Nat) : Except String (List Nat) :=
  if k ≤ n then .ok (sampleGo k (List.range n) seed) else .error "ValueError"

/-- The dataset state built by MySet.__init__: the raw lines and the
validation indices (a Python set, kept here as a duplicate-free list). -/
structure MySet where
  content : List Line
  val_indices : List Nat
deriving DecidableEq

/-- MySet.__init__ after the file read: n = len(content),
val_sz = max(1, int(round(n * val_ratio))), then a without-replacement
draw of val_sz indices from arange(n). -/
def mySetInit (content : List Line) (vr : Rat) (seed : Nat) :
    Except String MySet :=
  let n := content.length
  let val_sz : Int := max 1 (pyRound ((n : Rat) * vr))
  (rngChoice seed n val_sz.toNat).map (fun v => ⟨content, v⟩)

/-- Python list indexing content[idx]: a negative index counts from the
end; out of range is an IndexError, modelled as none. -/
def pyIndex {α : Type} (xs : List α) (i : Int) : Option α :=
  let j : Int := if i < 0 then (xs.length : Int) + i else i
  if 0 ≤ j then xs.get? j.toNat else none

/-- MySet.__getitem__: parse line idx with json.loads, then add
is_train = 0 if idx is in val_indices else 1; the membership test is on
the raw index value handed in. -/
def getitem (m : MySet) (idx : Int) : Except String TaggedRec :=
  match pyIndex m.content idx with
  | none => .error "IndexError"
  | some l =>
    match jsonLoads l with
    | .error e => .error e
    | .ok d =>
      .ok ⟨d.forward, d.backward, d.label,
        if m.val_indices.any (fun v => (v : Int) == idx) then 0 else 1⟩

/-- Modelled from the spec: torch.tensor(xs, dtype=dt) on a flat list of
numbers — the shape is the list length and the dtype is as requested. -/
def torchTensor1 (xs : List Rat) (dt : DType) : Tensor Rat :=
  ⟨[xs.length], dt, xs⟩

/-- Modelled from the spec: torch.tensor(xss, dtype=dt) on a triply nested
list — torch infers the shape level by level from the first element and
rejects ragged nesting (ShapeMismatchError in the spec taxonomy); the payload is
kept per batch entry. -/
def torchTensor3 (xss : List (List (List Rat))) (dt : DType) :
    Except String (Tensor (List (List Rat))) :=
  match xss with
  | [] => .ok ⟨[0], dt, []⟩
  | r0 :: rest =>
    if (r0 :: rest).all (fun r => r.length == r0.length) then
      match r0 with
      | [] => .ok ⟨[(r0 :: rest).length, 0], dt, r0 :: rest⟩
      | t0 :: _ =>
        if (r0 :: rest).all (fun r => r.all (fun t => t.length == t0.length)) then
          .ok ⟨[(r0 :: rest).length, r0.length, t0.length], dt, r0 :: rest⟩
        else .error "ShapeMismatchError"
    else .error "ShapeMismatchError"

/-- One packed direction: the six field tensors built by
pack_time_series. -/
structure PackedDir where
  values : Tensor (List (List Rat))
  masks : Tensor (List (List Rat))
  deltas : Tensor (List (List Rat))
  forwards : Tensor (List (List Rat))
  evals : Tensor (List (List Rat))
  eval_masks : Tensor (List (List Rat))
deriving DecidableEq

/-- The batch bundle returned by collate_fn. -/
structure Batch where
  forward : PackedDir
  backward : PackedDir
  labels : Tensor Rat
  is_train : Tensor Rat
deriving DecidableEq

/-- _pack_time_series: build the six nested [batch][time][feature] lists
and convert each to a float32 tensor; the first ragged field aborts the
whole pack. -/
def pack_time_series (recs : List (List TimeStep)) :
    Except String PackedDir := do
  let v ← torchTensor3 (recs.map (fun r => r.map TimeStep.values)) .float32
  let m ← torchTensor3 (recs.map (fun r => r.map TimeStep.masks)) .float32
  let d ← torchTensor3 (recs.map (fun r => r.map TimeStep.deltas)) .float32
  let f ← torchTensor3 (recs.map (fun r => r.map TimeStep.forwards)) .float32
  let e ← torchTensor3 (recs.map (fun r => r.map TimeStep.evals)) .float32
  let em ← torchTensor3 (recs.map (fun r => r.map TimeStep.eval_masks)) .float32
  return ⟨v, m, d, f, e, em⟩

/-- Evaluation of a list comprehension that reads one key from every
record: the first record missing the key raises KeyError. -/
def extractAll {α : Type} (f : TaggedRec → Option α) :
    List TaggedRec → Except String (List α)
  | [] => .ok []
  | r :: rest =>
    match f r with
    | none => .error "KeyError"
    | some v => (extractAll f rest).map (fun vs => v :: vs)

/-- collate_fn: extract the forward and backward series, pack each
direction, and build the float32 label and is_train vectors. -/
def collate_fn (recs : List TaggedRec) : Except String Batch := do
  let fwd ← extractAll TaggedRec.forward recs
  let bwd ← extractAll TaggedRec.backward recs
  let pf ← pack_time_series fwd
  let pb ← pack_time_series bwd
  let ls ← extractAll TaggedRec.label recs
  return ⟨pf, pb, torchTensor1 ls .float32,
    torchTensor1 (recs.map (fun r => (r.is_train : Rat))) .float32⟩

/-- A sequence is well-shaped for (T, F): T steps, every field array of
length F. -/
def seqWF (s : List TimeStep) (T F : Nat) : Bool :=
  s.length == T &&
  s.all (fun ts =>
    ts.values.length == F && ts.masks.length == F && ts.deltas.length == F &&
    ts.forwards.length == F && ts.evals.length == F &&
    ts.eval_masks.length == F)

/-- A tagged record is well-formed for (T, F): both directions present and
well-shaped, and the label present. -/
def recWF (r : TaggedRec) (T F : Nat) : Bool :=
  (match r.forward with | some s => seqWF s T F | none => false) &&
  (match r.backward with | some s => seqWF s T F | none => false) &&
  r.label.isSome

/-- The forward sequence of a record, defaulting to empty. -/
def fseq (r : TaggedRec) : List TimeStep := r.forward.getD []

/-- The backward sequence of a record, defaulting to empty. -/
def bseq (r : TaggedRec) : List TimeStep := r.backward.getD []

/-- Whether an Except value is a success. -/
def exceptOk {ε α : Type} : Except ε α → Bool
  | .ok _ => true
  | .error _ => false

/-- A concrete time step with two features, every field set to the given
pair. -/
def ts2 (a b : Rat) : TimeStep := ⟨[a, b], [a, b], [a, b], [a, b], [a, b], [a, b]⟩

/-- A concrete time step with no features. -/
def ts0 : TimeStep := ⟨[], [], [], [], [], []⟩

/-- A concrete well-formed tagged record with T = 3, F = 2. -/
def wRec (l : Rat) (t : Int) : TaggedRec :=
  ⟨some [ts2 1 2, ts2 3 4, ts2 5 6], some [ts2 5 6, ts2 3 4, ts2 1 2], some l, t⟩

/-- A concrete two-example batch input with labels 1 and 0. -/
def wRecs : List TaggedRec := [wRec 1 1, wRec 0 0]

/-- A parsed record with every required field absent. -/
def emptyRaw : RawRec := ⟨none, none, none⟩

/-- A one-line dataset whose single line parses to an empty record. -/
def oneLine : List Line := [Line.parsed emptyRaw]

/-- A five-line dataset; line contents are irrelevant to the split. -/
def fiveLines : List Line := List.replicate 5 Line.bad

/-- A three-line dataset; line contents are irrelevant to the split. -/
def threeLines : List Line := List.replicate 3 Line.bad

theorem getD_mem {l : List Nat} {i : Nat} (h : i < l.length) (d : Nat) :
    l.getD i d ∈ l := by
  rw [List.getD_eq_getElem l d h]
  exact List.getElem_mem h

theorem sampleGo_length (k : Nat) : ∀ (pool : List Nat) (s : Nat),
    (sampleGo k pool s).length = min k pool.length := by
  induction k with
  | zero => intro pool s; simp [sampleGo]
  | succ k ih =>
    intro pool s
    cases pool with
    | nil => simp [sampleGo]
    | cons a l =>
      have hlt : lcg s % (l.length + 1) < l.length + 1 :=
        Nat.mod_lt _ (by omega)
      have hx : (a :: l).getD (lcg s % (l.length + 1)) 0 ∈ a :: l :=
        getD_mem (by simpa using hlt) 0
      have hlen :
          ((a :: l).erase ((a :: l).getD (lcg s % (l.length + 1)) 0)).length
            = l.length := by
        rw [List.length_erase_of_mem hx]; simp
      simp only [sampleGo, List.isEmpty_cons, Bool.false_eq_true, if_false,
        List.length_cons, ih, hlen]
      omega

theorem sampleGo_subset (k : Nat) : ∀ (pool : List Nat) (s : Nat),
    ∀ x ∈ sampleGo k pool s, x ∈ pool := by
  induction k with
  | zero => intro pool s x hx; simp [sampleGo] at hx
  | succ k ih =>
    intro pool s x hx
    cases pool with
    | nil => simp [sampleGo] at hx
    | cons a l =>
      simp only [sampleGo, List.isEmpty_cons, Bool.false_eq_true, if_false,
        List.mem_cons] at hx
      have hlt : lcg s % (a :: l).length < (a :: l).length :=
        Nat.mod_lt _ (by simp)
      rcases hx with hx | hx
      · rw [hx]; exact getD_mem hlt 0
      · exact List.erase_subset _ _ (ih _ _ x hx)

theorem sampleGo_nodup (k : Nat) : ∀ (pool : List Nat) (s : Nat),
    pool.Nodup → (sampleGo k pool s).Nodup := by
  induction k with
  | zero => intro pool s _; simp [sampleGo]
  | succ k ih =>
    intro pool s hnd
    cases pool with
    | nil => simp [sampleGo]
    | cons a l =>
      simp only [sampleGo, List.isEmpty_cons, Bool.false_eq_true, if_false]
      refine List.nodup_cons.mpr ⟨?_, ih _ _ (hnd.erase _)⟩
      intro hmem
      have hsub := sampleGo_subset k _ _ _ hmem
      have := (hnd.mem_erase_iff).mp hsub
      exact this.1 rfl

theorem pyRound_le_floor_add_one (q : Rat) : pyRound q ≤ ⌊q⌋ + 1 := by
  unfold pyRound
  split_ifs <;> omega

theorem pyRound_le_of_lt {q : Rat} {z : Int} (h : q < z) : pyRound q ≤ z := by
  have h1 : ⌊q⌋ < z := Int.floor_lt.mpr h
  have h2 := pyRound_le_floor_add_one q
  omega

theorem pyRound_nonpos {q : Rat} (h : q ≤ 0) : pyRound q ≤ 0 := by
  rcases lt_or_eq_of_le h with h | h
  · have h1 : ⌊q⌋ < 0 := Int.floor_lt.mpr (by exact_mod_cast h)
    have h2 := pyRound_le_floor_add_one q
    omega
  · subst h
    norm_num [pyRound]

theorem val_sz_le_n {n : Nat} {vr : Rat} (h1 : vr < 1) (hn : 1 ≤ n) :
    max 1 (pyRound ((n : Rat) * vr)) ≤ (n : Int) := by
  have hpos : (0 : Rat) < (n : Rat) := by exact_mod_cast hn
  have hq : (n : Rat) * vr < ((n : Int) : Rat) := by
    push_cast
    calc (n : Rat) * vr < (n : Rat) * 1 := by
          exact mul_lt_mul_of_pos_left h1 hpos
      _ = (n : Rat) := mul_one _
  have h2 : pyRound ((n : Rat) * vr) ≤ (n : Int) := pyRound_le_of_lt hq
  have h3 : (1 : Int) ≤ (n : Int) := by exact_mod_cast hn
  omega

theorem mySetInit_ok {c : List Line} {vr : Rat} {s : Nat}
    (h : (max 1 (pyRound ((c.length : Rat) * vr))).toNat ≤ c.length) :
    mySetInit c vr s = .ok
      ⟨c, sampleGo (max 1 (pyRound ((c.length : Rat) * vr))).toNat
          (List.range c.length) s⟩ := by
  simp [mySetInit, rngChoice, h, Except.map]

/-- C1: for every dataset of size N >= 1 and every val_ratio in (0,1), the
validation index set built at construction has exactly
max(1, round(N * val_ratio)) elements (which never exceeds N, so the clamp
is moot), all distinct and drawn from [0, N). -/
theorem c1_val_split_size (c : List Line) (vr : Rat) (s : Nat)
    (h0 : 0 < vr) (h1 : vr < 1) (hn : 1 ≤ c.length) :
    ∃ m, mySetInit c vr s = .ok m ∧
      m.val_indices.length = (max 1 (pyRound ((c.length : Rat) * vr))).toNat ∧
      m.val_indices.length ≤ c.length ∧
      m.val_indices.Nodup ∧
      ∀ i ∈ m.val_indices, i < c.length := by
  have hle := val_sz_le_n (n := c.length) h1 hn
  have hk : (max 1 (pyRound ((c.length : Rat) * vr))).toNat ≤ c.length := by
    omega
  refine ⟨_, mySetInit_ok hk, ?_, ?_, ?_, ?_⟩
  · rw [sampleGo_length, List.length_range]
    omega
  · rw [sampleGo_length, List.length_range]
    omega
  · exact sampleGo_nodup _ _ _ (List.nodup_range _)
  · intro i hi
    exact List.mem_range.mp (sampleGo_subset _ _ _ i hi)

/-- Witness for C1 at N = 3, val_ratio = 1/2: the split size is
round(1.5) = 2. -/
theorem c1_val_split_size_witness :
    (0 < (1 / 2 : Rat) ∧ (1 / 2 : Rat) < 1 ∧ 1 ≤ threeLines.length ∧
      (max 1 (pyRound ((threeLines.length : Rat) * (1 / 2)))).toNat = 2) ∧
    (∃ m, mySetInit threeLines (1 / 2) 42 = .ok m ∧
      m.val_indices.length
        = (max 1 (pyRound ((threeLines.length : Rat) * (1 / 2)))).toNat ∧
      m.val_indices.length ≤ threeLines.length ∧
      m.val_indices.Nodup ∧
      ∀ i ∈ m.val_indices, i < threeLines.length) := by
  have hp : pyRound ((threeLines.length : Rat) * (1 / 2)) = 2 := by
    norm_num [threeLines, pyRound]
  exact ⟨⟨by norm_num, by norm_num, by decide, by rw [hp]; decide⟩,
    c1_val_split_size threeLines (1 / 2) 42 (by norm_num) (by norm_num)
      (by decide)⟩

/-- C2: the validation index set depends only on (N, val_ratio, seed): two
constructions over contents of the same length give identical val sets. -/
theorem c2_split_deterministic (c1 c2 : List Line) (vr : Rat) (s : Nat)
    (h : c1.length = c2.length) :
    (mySetInit c1 vr s).map MySet.val_indices
      = (mySetInit c2 vr s).map MySet.val_indices := by
  simp only [mySetInit, h]
  cases rngChoice s c2.length (max 1 (pyRound ((c2.length : Rat) * vr))).toNat
    <;> rfl

/-- Witness for C2: two one-line datasets with different contents get the
same validation set. -/
theorem c2_split_deterministic_witness :
    ([Line.bad].length = oneLine.length) ∧
    ((mySetInit [Line.bad] (1 / 5) 42).map MySet.val_indices
      = (mySetInit oneLine (1 / 5) 42).map MySet.val_indices) :=
  ⟨by decide, c2_split_deterministic [Line.bad] oneLine (1 / 5) 42 (by decide)⟩

theorem mySetInit_eval {c : List Line} {vr : Rat} {s : Nat} {p : Int}
    (hp : pyRound ((c.length : Rat) * vr) = p)
    (h : (max 1 p).toNat ≤ c.length) :
    mySetInit c vr s
      = .ok ⟨c, sampleGo (max 1 p).toNat (List.range c.length) s⟩ := by
  simp only [mySetInit, hp, rngChoice, if_pos h, Except.map]

/-- Counterexample to C7: val_ratio = 0 is outside (0,1), yet construction
over a five-line dataset succeeds — no InvalidConfigError-style validation
happens. -/
theorem c7_counterexample :
    ¬(0 < (0 : Rat) ∧ (0 : Rat) < 1) ∧
    exceptOk (mySetInit fiveLines 0 42) = true := by
  constructor
  · simp
  · rw [mySetInit_eval (p := 0) (by norm_num [fiveLines, pyRound]) (by decide)]
    rfl

/-- C7 amended: construction performs no parameter validation.  A
val_ratio at or below 0 still succeeds for N >= 1 (a singleton validation
set, via max(1, .)), and the only construction-time failure is the
sampler ValueError when the requested size exceeds N, e.g. when N = 0. -/
theorem c7_no_validation (c : List Line) (vr : Rat) (s : Nat) :
    (vr ≤ 0 → 1 ≤ c.length →
      ∃ m, mySetInit c vr s = .ok m ∧ m.val_indices.length = 1) ∧
    (c.length = 0 → mySetInit c vr s = .error "ValueError") := by
  constructor
  · intro hvr hn
    have h1 : (0 : Rat) ≤ (c.length : Rat) := by positivity
    have hq : (c.length : Rat) * vr ≤ 0 :=
      mul_nonpos_iff.mpr (Or.inl ⟨h1, hvr⟩)
    have hp : pyRound ((c.length : Rat) * vr) ≤ 0 := pyRound_nonpos hq
    refine ⟨_, mySetInit_ok (by omega), ?_⟩
    rw [sampleGo_length, List.length_range]
    omega
  · intro h0
    have hgt : ¬((max 1 (pyRound ((c.length : Rat) * vr))).toNat ≤ c.length) := by
      have := le_max_left 1 (pyRound ((c.length : Rat) * vr))
      omega
    simp only [mySetInit, rngChoice, if_neg hgt, Except.map]

/-- Witness for the amended C7: N = 5 with val_ratio = 0 succeeds with one
validation index; N = 0 fails with the sampler ValueError. -/
theorem c7_no_validation_witness :
    ((0 : Rat) ≤ 0 ∧ 1 ≤ fiveLines.length ∧
      ∃ m, mySetInit fiveLines 0 42 = .ok m ∧ m.val_indices.length = 1) ∧
    (([] : List Line).length = 0 ∧
      mySetInit [] 0 42 = .error "ValueError") :=
  ⟨⟨le_refl 0, by decide,
    (c7_no_validation fiveLines 0 42).1 (le_refl 0) (by decide)⟩,
   ⟨rfl, (c7_no_validation [] 0 42).2 rfl⟩⟩

theorem except_bind_ok {ε α β : Type} (a : α) (f : α → Except ε β) :
    (Except.ok a >>= f) = f a := rfl

theorem except_bind_error {ε α β : Type} (e : ε) (f : α → Except ε β) :
    ((Except.error e : Except ε α) >>= f) = Except.error e := rfl

theorem mySetInit_content {c : List Line} {vr : Rat} {s : Nat} {m : MySet}
    (h : mySetInit c vr s = .ok m) : m.content = c := by
  simp only [mySetInit] at h
  cases hrc : rngChoice s c.length
      (max 1 (pyRound ((c.length : Rat) * vr))).toNat with
  | ok v =>
    rw [hrc] at h
    simp only [Except.map, Except.ok.injEq] at h
    rw [← h]
  | error e =>
    rw [hrc] at h
    simp only [Except.map] at h
    exact absurd h (by simp)

theorem pyIndex_nat {α : Type} (xs : List α) (i : Nat) :
    pyIndex xs (i : Int) = xs.get? i := by
  have h1 : ¬((i : Int) < 0) := by omega
  have h2 : (0 : Int) ≤ (i : Int) := by omega
  simp only [pyIndex, if_neg h1, if_pos h2, Int.toNat_natCast]

theorem any_beq_nat (l : List Nat) (i : Nat) :
    (l.any fun v => (v : Int) == (i : Int)) = true ↔ i ∈ l := by
  rw [List.any_eq_true]
  constructor
  · rintro ⟨v, hv, hb⟩
    have hvi : (v : Int) = (i : Int) := beq_iff_eq.mp hb
    have : v = i := by exact_mod_cast hvi
    rwa [← this]
  · intro h
    exact ⟨i, h, by simp⟩

theorem any_beq_neg (l : List Nat) {idx : Int} (h : idx < 0) :
    (l.any fun v => (v : Int) == idx) = false := by
  apply Bool.eq_false_iff.mpr
  intro hb
  rw [List.any_eq_true] at hb
  obtain ⟨v, hv, hbeq⟩ := hb
  have : (v : Int) = idx := beq_iff_eq.mp hbeq
  omega

/-- C3: a record returned by get(i) for i in [0, N) carries is_train = 0
exactly when i is in the validation set built at construction, and
is_train = 1 exactly otherwise. -/
theorem c3_tag_correct (c : List Line) (vr : Rat) (s : Nat) (m : MySet)
    (hm : mySetInit c vr s = .ok m) (i : Nat) (hi : i < c.length)
    (r : TaggedRec) (hr : getitem m (i : Int) = .ok r) :
    (r.is_train = 0 ↔ i ∈ m.val_indices) ∧
    (r.is_train = 1 ↔ i ∉ m.val_indices) := by
  have hc : m.content = c := mySetInit_content hm
  have hl : c.get? i = some (c.get ⟨i, hi⟩) := List.get?_eq_get hi
  rw [getitem, hc, pyIndex_nat, hl] at hr
  cases hget : c.get ⟨i, hi⟩ with
  | bad =>
    rw [hget] at hr
    simp [jsonLoads] at hr
  | parsed d =>
    rw [hget] at hr
    simp only [jsonLoads, Except.ok.injEq] at hr
    by_cases hmem : i ∈ m.val_indices
    · have hb : (m.val_indices.any fun v => (v : Int) == (i : Int)) = true :=
        (any_beq_nat _ _).mpr hmem
      rw [hb] at hr
      rw [← hr]
      simp [hmem]
    · have hb : (m.val_indices.any fun v => (v : Int) == (i : Int)) = false := by
        apply Bool.eq_false_iff.mpr
        intro hbt
        exact hmem ((any_beq_nat _ _).mp hbt)
      rw [hb] at hr
      rw [← hr]
      simp [hmem]

/-- Witness for C3: a one-line dataset with val = {0}; get(0) returns
is_train = 0 and index 0 is in the validation set. -/
theorem c3_tag_correct_witness :
    (mySetInit oneLine (1 / 5) 42 = .ok ⟨oneLine, [0]⟩ ∧
      0 < oneLine.length ∧
      getitem ⟨oneLine, [0]⟩ ((0 : Nat) : Int) = .ok ⟨none, none, none, 0⟩) ∧
    (((TaggedRec.mk none none none 0).is_train = 0 ↔ 0 ∈ ([0] : List Nat)) ∧
     ((TaggedRec.mk none none none 0).is_train = 1 ↔ 0 ∉ ([0] : List Nat))) := by
  have hm : mySetInit oneLine (1 / 5) 42 = .ok ⟨oneLine, [0]⟩ := by
    rw [mySetInit_eval (p := 0) (by norm_num [oneLine, pyRound]) (by decide)]
    congr 1
  exact ⟨⟨hm, by decide, rfl⟩,
    c3_tag_correct oneLine (1 / 5) 42 ⟨oneLine, [0]⟩ hm 0 (by decide) _ rfl⟩

/-- C9: a negative index -k with 1 <= k <= N does not fail: it returns the
record parsed from line N - k, but tagged is_train = 1 unconditionally,
because membership is tested on the raw negative index, which can never be
in the set of non-negative validation indices. -/
theorem c9_negative_index (c : List Line) (vr : Rat) (s : Nat) (m : MySet)
    (hm : mySetInit c vr s = .ok m) (k : Nat) (hk1 : 1 ≤ k)
    (hk2 : k ≤ c.length) (d : RawRec)
    (hl : c.get? (c.length - k) = some (Line.parsed d)) :
    getitem m (-(k : Int)) = .ok ⟨d.forward, d.backward, d.label, 1⟩ := by
  have hc : m.content = c := mySetInit_content hm
  have hneg : (-(k : Int)) < 0 := by omega
  have hj : (0 : Int) ≤ (c.length : Int) + (-(k : Int)) := by omega
  have hjt : ((c.length : Int) + (-(k : Int))).toNat = c.length - k := by omega
  rw [getitem, hc]
  simp only [pyIndex, if_pos hneg, if_pos hj, hjt, hl, jsonLoads]
  rw [any_beq_neg _ hneg]
  rfl

/-- Witness for C9: on a one-line dataset whose whole validation set is
{0}, looking up index -1 (line 0) still returns is_train = 1. -/
theorem c9_negative_index_witness :
    (mySetInit oneLine (1 / 5) 42 = .ok ⟨oneLine, [0]⟩ ∧
      1 ≤ 1 ∧ 1 ≤ oneLine.length ∧
      oneLine.get? (oneLine.length - 1) = some (Line.parsed emptyRaw)) ∧
    getitem ⟨oneLine, [0]⟩ (-((1 : Nat) : Int))
      = .ok ⟨emptyRaw.forward, emptyRaw.backward, emptyRaw.label, 1⟩ := by
  have hm : mySetInit oneLine (1 / 5) 42 = .ok ⟨oneLine, [0]⟩ := by
    rw [mySetInit_eval (p := 0) (by norm_num [oneLine, pyRound]) (by decide)]
    congr 1
  exact ⟨⟨hm, le_refl 1, by decide, rfl⟩,
    c9_negative_index oneLine (1 / 5) 42 ⟨oneLine, [0]⟩ hm 1 (le_refl 1)
      (by decide) emptyRaw rfl⟩

/-- Counterexample to C8: a line that parses to a record with forward,
backward and label all absent is returned successfully by get(0) — the
lookup does not fail on missing required fields. -/
theorem c8_counterexample :
    mySetInit oneLine (1 / 5) 42 = .ok ⟨oneLine, [0]⟩ ∧
    getitem ⟨oneLine, [0]⟩ 0 = .ok ⟨none, none, none, 0⟩ ∧
    (TaggedRec.mk none none none 0).forward = none := by
  refine ⟨?_, rfl, rfl⟩
  rw [mySetInit_eval (p := 0) (by norm_num [oneLine, pyRound]) (by decide)]
  congr 1

/-- C8 amended: get(i) fails exactly when line i fails to parse (with the
parser error); a line that parses is returned as-is with the is_train
tag added, even when required fields are absent, and the absence of
forward surfaces only later, as the KeyError of collate. -/
theorem c8_parse_only (c : List Line) (vr : Rat) (s : Nat) (m : MySet)
    (hm : mySetInit c vr s = .ok m) (i : Nat) (hi : i < c.length) :
    (c.get? i = some Line.bad → getitem m (i : Int) = .error "ValueError") ∧
    (∀ d, c.get? i = some (Line.parsed d) →
      getitem m (i : Int)
        = .ok ⟨d.forward, d.backward, d.label,
            if i ∈ m.val_indices then 0 else 1⟩) ∧
    (∀ r : TaggedRec, r.forward = none → ∀ rest,
      collate_fn (r :: rest) = .error "KeyError") := by
  have hc : m.content = c := mySetInit_content hm
  refine ⟨?_, ?_, ?_⟩
  · intro hbad
    rw [getitem, hc, pyIndex_nat, hbad]
    rfl
  · intro d hd
    rw [getitem, hc, pyIndex_nat, hd]
    by_cases hmem : i ∈ m.val_indices
    · have hb : (m.val_indices.any fun v => (v : Int) == (i : Int)) = true :=
        (any_beq_nat _ _).mpr hmem
      rw [hb, if_pos hmem]
      rfl
    · have hb : (m.val_indices.any fun v => (v : Int) == (i : Int)) = false := by
        apply Bool.eq_false_iff.mpr
        intro hbt
        exact hmem ((any_beq_nat _ _).mp hbt)
      rw [hb, if_neg hmem]
      rfl
  · intro r hfwd rest
    rw [collate_fn]
    simp only [extractAll, hfwd, Except.map, except_bind_error]

/-- Witness for the amended C8: on a one-line dataset whose line does not
parse, get(0) surfaces the parse error. -/
theorem c8_parse_only_witness :
    (mySetInit [Line.bad] (1 / 5) 42 = .ok ⟨[Line.bad], [0]⟩ ∧
      0 < [Line.bad].length ∧
      [Line.bad].get? 0 = some Line.bad) ∧
    getitem ⟨[Line.bad], [0]⟩ ((0 : Nat) : Int) = .error "ValueError" := by
  have hm : mySetInit [Line.bad] (1 / 5) 42 = .ok ⟨[Line.bad], [0]⟩ := by
    rw [mySetInit_eval (p := 0) (by norm_num [pyRound]) (by decide)]
    congr 1
  exact ⟨⟨hm, by decide, rfl⟩,
    (c8_parse_only [Line.bad] (1 / 5) 42 ⟨[Line.bad], [0]⟩ hm 0
      (by decide)).1 rfl⟩

theorem seqWF_iff {q : List TimeStep} {T F : Nat} :
    seqWF q T F = true ↔
      q.length = T ∧ ∀ ts ∈ q,
        ts.values.length = F ∧ ts.masks.length = F ∧ ts.deltas.length = F ∧
        ts.forwards.length = F ∧ ts.evals.length = F ∧
        ts.eval_masks.length = F := by
  simp [seqWF, List.all_eq_true, and_assoc]

theorem recWF_parts {r : TaggedRec} {T F : Nat} (h : recWF r T F = true) :
    r.forward = some (fseq r) ∧ seqWF (fseq r) T F = true ∧
    r.backward = some (bseq r) ∧ seqWF (bseq r) T F = true ∧
    r.label = some (r.label.getD 0) := by
  rw [recWF, Bool.and_eq_true, Bool.and_eq_true] at h
  obtain ⟨⟨h1, h2⟩, h3⟩ := h
  cases hf : r.forward with
  | none => rw [hf] at h1; exact absurd h1 (by simp)
  | some q =>
    cases hb : r.backward with
    | none => rw [hb] at h2; exact absurd h2 (by simp)
    | some p =>
      cases hl : r.label with
      | none => rw [hl] at h3; exact absurd h3 (by simp)
      | some v =>
        rw [hf] at h1
        rw [hb] at h2
        have hfs : fseq r = q := by rw [fseq, hf]; rfl
        have hbs : bseq r = p := by rw [bseq, hb]; rfl
        exact ⟨by rw [hfs], by rw [hfs]; exact h1,
          by rw [hbs], by rw [hbs]; exact h2, rfl⟩

theorem torchTensor3_ok {T F : Nat} (xss : List (List (List Rat)))
    (dt : DType) (hne : xss ≠ []) (hT : 0 < T)
    (hrow : ∀ r ∈ xss, r.length = T)
    (hent : ∀ r ∈ xss, ∀ t ∈ r, t.length = F) :
    torchTensor3 xss dt = .ok ⟨[xss.length, T, F], dt, xss⟩ := by
  cases xss with
  | nil => exact absurd rfl hne
  | cons x0 rest =>
    cases x0 with
    | nil =>
      have hx0 := hrow [] (List.mem_cons_self _ _)
      simp at hx0
      omega
    | cons t0 ts =>
      have hx0 : (t0 :: ts).length = T := hrow _ (List.mem_cons_self _ _)
      have ht0 : t0.length = F :=
        hent _ (List.mem_cons_self _ _) t0 (List.mem_cons_self _ _)
      have hall1 : ((t0 :: ts) :: rest).all
          (fun r => r.length == (t0 :: ts).length) = true := by
        rw [List.all_eq_true]
        intro r hr
        rw [beq_iff_eq, hrow r hr, hx0]
      have hall2 : ((t0 :: ts) :: rest).all
          (fun r => r.all fun t => t.length == t0.length) = true := by
        rw [List.all_eq_true]
        intro r hr
        rw [List.all_eq_true]
        intro t ht
        rw [beq_iff_eq, hent r hr t ht, ht0]
      simp only [torchTensor3, hall1, if_true, hall2]
      rw [hx0, ht0]

theorem torchTensor3_field {T F : Nat} (seqs : List (List TimeStep))
    (f : TimeStep → List Rat) (hne : seqs ≠ []) (hT : 0 < T)
    (hq : ∀ q ∈ seqs, q.length = T)
    (hts : ∀ q ∈ seqs, ∀ ts ∈ q, (f ts).length = F) :
    torchTensor3 (seqs.map (fun q => q.map f)) .float32
      = .ok ⟨[seqs.length, T, F], .float32, seqs.map (fun q => q.map f)⟩ := by
  have hne2 : seqs.map (fun q => q.map f) ≠ [] := by
    intro hmap
    exact hne (List.map_eq_nil_iff.mp hmap)
  have hrow : ∀ r ∈ seqs.map (fun q => q.map f), r.length = T := by
    intro r hr
    obtain ⟨q, hqm, rfl⟩ := List.mem_map.mp hr
    rw [List.length_map]
    exact hq q hqm
  have hent : ∀ r ∈ seqs.map (fun q => q.map f), ∀ t ∈ r, t.length = F := by
    intro r hr t ht
    obtain ⟨q, hqm, rfl⟩ := List.mem_map.mp hr
    obtain ⟨ts, htsm, rfl⟩ := List.mem_map.mp ht
    exact hts q hqm ts htsm
  have h := torchTensor3_ok (T := T) (F := F) _ DType.float32 hne2 hT hrow hent
  rwa [List.length_map] at h

theorem torchTensor3_err1 (x0 : List (List Rat))
    (rest : List (List (List Rat))) (dt : DType)
    (h : (x0 :: rest).all (fun r => r.length == x0.length) = false) :
    torchTensor3 (x0 :: rest) dt = .error "ShapeMismatchError" := by
  simp only [torchTensor3, h, Bool.false_eq_true, if_false]

theorem torchTensor3_err2 (t0 : List Rat) (ts : List (List Rat))
    (rest : List (List (List Rat))) (dt : DType)
    (h1 : ((t0 :: ts) :: rest).all
      (fun r => r.length == (t0 :: ts).length) = true)
    (h2 : ((t0 :: ts) :: rest).all
      (fun r => r.all fun t => t.length == t0.length) = false) :
    torchTensor3 ((t0 :: ts) :: rest) dt = .error "ShapeMismatchError" := by
  simp only [torchTensor3, h1, if_true, h2, Bool.false_eq_true, if_false]

theorem extractAll_eq_map {α : Type} (f : TaggedRec → Option α)
    (g : TaggedRec → α) :
    ∀ (recs : List TaggedRec), (∀ r ∈ recs, f r = some (g r)) →
      extractAll f recs = .ok (recs.map g)
  | [], _ => rfl
  | r :: rest, h => by
    rw [extractAll, h r (List.mem_cons_self _ _),
      extractAll_eq_map f g rest (fun x hx => h x (List.mem_cons_of_mem _ hx))]
    rfl

theorem pack_time_series_wf {T F : Nat} (seqs : List (List TimeStep))
    (hne : seqs ≠ []) (hT : 0 < T)
    (h : ∀ q ∈ seqs, seqWF q T F = true) :
    pack_time_series seqs = .ok
      ⟨⟨[seqs.length, T, F], .float32, seqs.map (fun q => q.map TimeStep.values)⟩,
       ⟨[seqs.length, T, F], .float32, seqs.map (fun q => q.map TimeStep.masks)⟩,
       ⟨[seqs.length, T, F], .float32, seqs.map (fun q => q.map TimeStep.deltas)⟩,
       ⟨[seqs.length, T, F], .float32, seqs.map (fun q => q.map TimeStep.forwards)⟩,
       ⟨[seqs.length, T, F], .float32, seqs.map (fun q => q.map TimeStep.evals)⟩,
       ⟨[seqs.length, T, F], .float32,
         seqs.map (fun q => q.map TimeStep.eval_masks)⟩⟩ := by
  have hq : ∀ q ∈ seqs, q.length = T :=
    fun q hq => (seqWF_iff.mp (h q hq)).1
  have hp : ∀ q ∈ seqs, ∀ ts ∈ q,
      ts.values.length = F ∧ ts.masks.length = F ∧ ts.deltas.length = F ∧
      ts.forwards.length = F ∧ ts.evals.length = F ∧
      ts.eval_masks.length = F :=
    fun q hqm => (seqWF_iff.mp (h q hqm)).2
  have h1 := torchTensor3_field (T := T) (F := F) seqs TimeStep.values hne hT hq
    (fun q hqm ts hts => (hp q hqm ts hts).1)
  have h2 := torchTensor3_field (T := T) (F := F) seqs TimeStep.masks hne hT hq
    (fun q hqm ts hts => (hp q hqm ts hts).2.1)
  have h3 := torchTensor3_field (T := T) (F := F) seqs TimeStep.deltas hne hT hq
    (fun q hqm ts hts => (hp q hqm ts hts).2.2.1)
  have h4 := torchTensor3_field (T := T) (F := F) seqs TimeStep.forwards hne hT hq
    (fun q hqm ts hts => (hp q hqm ts hts).2.2.2.1)
  have h5 := torchTensor3_field (T := T) (F := F) seqs TimeStep.evals hne hT hq
    (fun q hqm ts hts => (hp q hqm ts hts).2.2.2.2.1)
  have h6 := torchTensor3_field (T := T) (F := F) seqs TimeStep.eval_masks hne hT hq
    (fun q hqm ts hts => (hp q hqm ts hts).2.2.2.2.2)
  rw [pack_time_series, h1, except_bind_ok, h2, except_bind_ok, h3,
    except_bind_ok, h4, except_bind_ok, h5, except_bind_ok, h6,
    except_bind_ok]
  rfl

theorem collate_fn_wf {T F : Nat} (recs : List TaggedRec)
    (hne : recs ≠ []) (hT : 0 < T)
    (hwf : ∀ r ∈ recs, recWF r T F = true) :
    collate_fn recs = .ok
      ⟨⟨⟨[recs.length, T, F], .float32,
          recs.map (fun r => (fseq r).map TimeStep.values)⟩,
        ⟨[recs.length, T, F], .float32,
          recs.map (fun r => (fseq r).map TimeStep.masks)⟩,
        ⟨[recs.length, T, F], .float32,
          recs.map (fun r => (fseq r).map TimeStep.deltas)⟩,
        ⟨[recs.length, T, F], .float32,
          recs.map (fun r => (fseq r).map TimeStep.forwards)⟩,
        ⟨[recs.length, T, F], .float32,
          recs.map (fun r => (fseq r).map TimeStep.evals)⟩,
        ⟨[recs.length, T, F], .float32,
          recs.map (fun r => (fseq r).map TimeStep.eval_masks)⟩⟩,
       ⟨⟨[recs.length, T, F], .float32,
          recs.map (fun r => (bseq r).map TimeStep.values)⟩,
        ⟨[recs.length, T, F], .float32,
          recs.map (fun r => (bseq r).map TimeStep.masks)⟩,
        ⟨[recs.length, T, F], .float32,
          recs.map (fun r => (bseq r).map TimeStep.deltas)⟩,
        ⟨[recs.length, T, F], .float32,
          recs.map (fun r => (bseq r).map TimeStep.forwards)⟩,
        ⟨[recs.length, T, F], .float32,
          recs.map (fun r => (bseq r).map TimeStep.evals)⟩,
        ⟨[recs.length, T, F], .float32,
          recs.map (fun r => (bseq r).map TimeStep.eval_masks)⟩⟩,
       ⟨[recs.length], .float32, recs.map (fun r => r.label.getD 0)⟩,
       ⟨[recs.length], .float32,
         recs.map (fun r => (r.is_train : Rat))⟩⟩ := by
  have hf : extractAll TaggedRec.forward recs = .ok (recs.map fseq) :=
    extractAll_eq_map _ _ recs (fun r hr => (recWF_parts (hwf r hr)).1)
  have hb : extractAll TaggedRec.backward recs = .ok (recs.map bseq) :=
    extractAll_eq_map _ _ recs (fun r hr => (recWF_parts (hwf r hr)).2.2.1)
  have hlab : extractAll TaggedRec.label recs
      = .ok (recs.map (fun r => r.label.getD 0)) :=
    extractAll_eq_map _ _ recs (fun r hr => (recWF_parts (hwf r hr)).2.2.2.2)
  have hneF : recs.map fseq ≠ [] := by
    intro hmap
    exact hne (List.map_eq_nil_iff.mp hmap)
  have hneB : recs.map bseq ≠ [] := by
    intro hmap
    exact hne (List.map_eq_nil_iff.mp hmap)
  have hwfF : ∀ q ∈ recs.map fseq, seqWF q T F = true := by
    intro q hqm
    obtain ⟨r, hr, rfl⟩ := List.mem_map.mp hqm
    exact (recWF_parts (hwf r hr)).2.1
  have hwfB : ∀ q ∈ recs.map bseq, seqWF q T F = true := by
    intro q hqm
    obtain ⟨r, hr, rfl⟩ := List.mem_map.mp hqm
    exact (recWF_parts (hwf r hr)).2.2.2.1
  have hpf := pack_time_series_wf (T := T) (F := F) (recs.map fseq) hneF hT hwfF
  have hpb := pack_time_series_wf (T := T) (F := F) (recs.map bseq) hneB hT hwfB
  simp only [List.map_map, List.length_map, Function.comp] at hpf hpb
  rw [collate_fn, hf, except_bind_ok, hb, except_bind_ok, hpf,
    except_bind_ok, hpb, except_bind_ok, hlab, except_bind_ok]
  simp only [torchTensor1, List.length_map]
  rfl

/-- C4: collate on a non-empty batch of well-formed examples sharing T
time steps (T > 0) and F features yields six [B,T,F] tensors per
direction plus [B] labels and is_train vectors, all tagged float32. -/
theorem c4_collate_shapes (recs : List TaggedRec) (T F : Nat)
    (hne : recs ≠ []) (hT : 0 < T)
    (hwf : ∀ r ∈ recs, recWF r T F = true) :
    ∃ b, collate_fn recs = .ok b ∧
      b.forward.values.shape = [recs.length, T, F] ∧
      b.forward.masks.shape = [recs.length, T, F] ∧
      b.forward.deltas.shape = [recs.length, T, F] ∧
      b.forward.forwards.shape = [recs.length, T, F] ∧
      b.forward.evals.shape = [recs.length, T, F] ∧
      b.forward.eval_masks.shape = [recs.length, T, F] ∧
      b.backward.values.shape = [recs.length, T, F] ∧
      b.backward.masks.shape = [recs.length, T, F] ∧
      b.backward.deltas.shape = [recs.length, T, F] ∧
      b.backward.forwards.shape = [recs.length, T, F] ∧
      b.backward.evals.shape = [recs.length, T, F] ∧
      b.backward.eval_masks.shape = [recs.length, T, F] ∧
      b.labels.shape = [recs.length] ∧
      b.is_train.shape = [recs.length] ∧
      b.forward.values.dtype = .float32 ∧
      b.forward.masks.dtype = .float32 ∧
      b.forward.deltas.dtype = .float32 ∧
      b.forward.forwards.dtype = .float32 ∧
      b.forward.evals.dtype = .float32 ∧
      b.forward.eval_masks.dtype = .float32 ∧
      b.backward.values.dtype = .float32 ∧
      b.backward.masks.dtype = .float32 ∧
      b.backward.deltas.dtype = .float32 ∧
      b.backward.forwards.dtype = .float32 ∧
      b.backward.evals.dtype = .float32 ∧
      b.backward.eval_masks.dtype = .float32 ∧
      b.labels.dtype = .float32 ∧
      b.is_train.dtype = .float32 :=
  ⟨_, collate_fn_wf (T := T) (F := F) recs hne hT hwf,
    rfl, rfl, rfl, rfl, rfl, rfl, rfl, rfl, rfl, rfl, rfl, rfl, rfl, rfl,
    rfl, rfl, rfl, rfl, rfl, rfl, rfl, rfl, rfl, rfl, rfl, rfl, rfl, rfl⟩

/-- Witness for C4: two records with T = 3, F = 2 collate to [2,3,2]
tensors and [2] vectors, all float32. -/
theorem c4_collate_shapes_witness :
    (wRecs ≠ [] ∧ 0 < 3 ∧ ∀ r ∈ wRecs, recWF r 3 2 = true) ∧
    (∃ b, collate_fn wRecs = .ok b ∧
      b.forward.values.shape = [wRecs.length, 3, 2] ∧
      b.forward.masks.shape = [wRecs.length, 3, 2] ∧
      b.forward.deltas.shape = [wRecs.length, 3, 2] ∧
      b.forward.forwards.shape = [wRecs.length, 3, 2] ∧
      b.forward.evals.shape = [wRecs.length, 3, 2] ∧
      b.forward.eval_masks.shape = [wRecs.length, 3, 2] ∧
      b.backward.values.shape = [wRecs.length, 3, 2] ∧
      b.backward.masks.shape = [wRecs.length, 3, 2] ∧
      b.backward.deltas.shape = [wRecs.length, 3, 2] ∧
      b.backward.forwards.shape = [wRecs.length, 3, 2] ∧
      b.backward.evals.shape = [wRecs.length, 3, 2] ∧
      b.backward.eval_masks.shape = [wRecs.length, 3, 2] ∧
      b.labels.shape = [wRecs.length] ∧
      b.is_train.shape = [wRecs.length] ∧
      b.forward.values.dtype = .float32 ∧
      b.forward.masks.dtype = .float32 ∧
      b.forward.deltas.dtype = .float32 ∧
      b.forward.forwards.dtype = .float32 ∧
      b.forward.evals.dtype = .float32 ∧
      b.forward.eval_masks.dtype = .float32 ∧
      b.backward.values.dtype = .float32 ∧
      b.backward.masks.dtype = .float32 ∧
      b.backward.deltas.dtype = .float32 ∧
      b.backward.forwards.dtype = .float32 ∧
      b.backward.evals.dtype = .float32 ∧
      b.backward.eval_masks.dtype = .float32 ∧
      b.labels.dtype = .float32 ∧
      b.is_train.dtype = .float32) :=
  ⟨⟨by decide, by decide, by decide⟩,
    c4_collate_shapes wRecs 3 2 (by decide) (by decide) (by decide)⟩

/-- C5: the batch axis preserves input order — entry b of labels, of
is_train, and of every packed field tensor in both directions comes from
example b of the input list. -/
theorem c5_order_preserved (recs : List TaggedRec) (T F : Nat)
    (hne : recs ≠ []) (hT : 0 < T)
    (hwf : ∀ r ∈ recs, recWF r T F = true) :
    ∃ b, collate_fn recs = .ok b ∧
      b.labels.data = recs.map (fun r => r.label.getD 0) ∧
      b.is_train.data = recs.map (fun r => (r.is_train : Rat)) ∧
      b.forward.values.data
        = recs.map (fun r => (fseq r).map TimeStep.values) ∧
      b.forward.masks.data
        = recs.map (fun r => (fseq r).map TimeStep.masks) ∧
      b.forward.deltas.data
        = recs.map (fun r => (fseq r).map TimeStep.deltas) ∧
      b.forward.forwards.data
        = recs.map (fun r => (fseq r).map TimeStep.forwards) ∧
      b.forward.evals.data
        = recs.map (fun r => (fseq r).map TimeStep.evals) ∧
      b.forward.eval_masks.data
        = recs.map (fun r => (fseq r).map TimeStep.eval_masks) ∧
      b.backward.values.data
        = recs.map (fun r => (bseq r).map TimeStep.values) ∧
      b.backward.masks.data
        = recs.map (fun r => (bseq r).map TimeStep.masks) ∧
      b.backward.deltas.data
        = recs.map (fun r => (bseq r).map TimeStep.deltas) ∧
      b.backward.forwards.data
        = recs.map (fun r => (bseq r).map TimeStep.forwards) ∧
      b.backward.evals.data
        = recs.map (fun r => (bseq r).map TimeStep.evals) ∧
      b.backward.eval_masks.data
        = recs.map (fun r => (bseq r).map TimeStep.eval_masks) :=
  ⟨_, collate_fn_wf (T := T) (F := F) recs hne hT hwf,
    rfl, rfl, rfl, rfl, rfl, rfl, rfl, rfl, rfl, rfl, rfl, rfl, rfl, rfl⟩

/-- Witness for C5: two examples with labels 1 and 0 produce the label
vector [1, 0] in that order. -/
theorem c5_order_preserved_witness :
    (wRecs ≠ [] ∧ 0 < 3 ∧ (∀ r ∈ wRecs, recWF r 3 2 = true) ∧
      wRecs.map (fun r => r.label.getD 0) = [1, 0] ∧
      wRecs.map (fun r => (r.is_train : Rat)) = [1, 0]) ∧
    (∃ b, collate_fn wRecs = .ok b ∧
      b.labels.data = wRecs.map (fun r => r.label.getD 0) ∧
      b.is_train.data = wRecs.map (fun r => (r.is_train : Rat)) ∧
      b.forward.values.data
        = wRecs.map (fun r => (fseq r).map TimeStep.values) ∧
      b.forward.masks.data
        = wRecs.map (fun r => (fseq r).map TimeStep.masks) ∧
      b.forward.deltas.data
        = wRecs.map (fun r => (fseq r).map TimeStep.deltas) ∧
      b.forward.forwards.data
        = wRecs.map (fun r => (fseq r).map TimeStep.forwards) ∧
      b.forward.evals.data
        = wRecs.map (fun r => (fseq r).map TimeStep.evals) ∧
      b.forward.eval_masks.data
        = wRecs.map (fun r => (fseq r).map TimeStep.eval_masks) ∧
      b.backward.values.data
        = wRecs.map (fun r => (bseq r).map TimeStep.values) ∧
      b.backward.masks.data
        = wRecs.map (fun r => (bseq r).map TimeStep.masks) ∧
      b.backward.deltas.data
        = wRecs.map (fun r => (bseq r).map TimeStep.deltas) ∧
      b.backward.forwards.data
        = wRecs.map (fun r => (bseq r).map TimeStep.forwards) ∧
      b.backward.evals.data
        = wRecs.map (fun r => (bseq r).map TimeStep.evals) ∧
      b.backward.eval_masks.data
        = wRecs.map (fun r => (bseq r).map TimeStep.eval_masks)) := by
  refine ⟨⟨by decide, by decide, by decide, ?_, ?_⟩,
    c5_order_preserved wRecs 3 2 (by decide) (by decide) (by decide)⟩
  · rfl
  · rfl

/-- C10: collate on the empty batch does not fail; every tensor in the
result, the twelve field tensors included, is the empty one-dimensional
tensor of shape [0], not a three-axis [0,T,F] tensor. -/
theorem c10_collate_empty :
    collate_fn [] = .ok
      ⟨⟨⟨[0], .float32, []⟩, ⟨[0], .float32, []⟩, ⟨[0], .float32, []⟩,
        ⟨[0], .float32, []⟩, ⟨[0], .float32, []⟩, ⟨[0], .float32, []⟩⟩,
       ⟨⟨[0], .float32, []⟩, ⟨[0], .float32, []⟩, ⟨[0], .float32, []⟩,
        ⟨[0], .float32, []⟩, ⟨[0], .float32, []⟩, ⟨[0], .float32, []⟩⟩,
       ⟨[0], .float32, []⟩, ⟨[0], .float32, []⟩⟩ := rfl

/-- C6: if two sequences handed to the packer differ in time-step count,
or two time steps differ in feature count (measured on the values array,
the spec TimeStep invariant makes all six arrays equal length), the
whole pack fails with the shape-mismatch error and returns no output. -/
theorem c6_shape_mismatch (recs : List (List TimeStep))
    (h : (∃ r1 ∈ recs, ∃ r2 ∈ recs, r1.length ≠ r2.length) ∨
         (∃ r1 ∈ recs, ∃ t1 ∈ r1, ∃ r2 ∈ recs, ∃ t2 ∈ r2,
           t1.values.length ≠ t2.values.length)) :
    pack_time_series recs = .error "ShapeMismatchError" := by
  have hv : torchTensor3 (recs.map (fun r => r.map TimeStep.values)) .float32
      = .error "ShapeMismatchError" := by
    cases recs with
    | nil =>
      rcases h with ⟨r1, h1, _⟩ | ⟨r1, h1, _⟩ <;> exact absurd h1 (by simp)
    | cons r0 rrest =>
      rw [List.map_cons]
      by_cases hall : ((r0.map TimeStep.values) ::
          rrest.map (fun r => r.map TimeStep.values)).all
          (fun r => r.length == (r0.map TimeStep.values).length) = true
      · have hlen : ∀ r ∈ r0 :: rrest, r.length = r0.length := by
          intro r hr
          have hmm : r.map TimeStep.values ∈ (r0.map TimeStep.values) ::
              rrest.map (fun r => r.map TimeStep.values) := by
            rw [← List.map_cons]
            exact List.mem_map_of_mem _ hr
          have := (List.all_eq_true.mp hall) _ hmm
          rw [beq_iff_eq] at this
          simpa [List.length_map] using this
        rcases h with ⟨r1, h1, r2, h2, hne⟩ |
            ⟨r1, h1, t1, ht1, r2, h2, t2, ht2, hne⟩
        · exact absurd (by rw [hlen r1 h1, hlen r2 h2]) hne
        · cases r0 with
          | nil =>
            have hz : r1.length = 0 := by rw [hlen r1 h1]; rfl
            rw [List.length_eq_zero] at hz
            rw [hz] at ht1
            exact absurd ht1 (by simp)
          | cons s0 s1 =>
            rw [List.map_cons]
            rw [List.map_cons] at hall
            apply torchTensor3_err2
            · exact hall
            · apply Bool.eq_false_iff.mpr
              intro htrue
              have hF : ∀ r ∈ (s0 :: s1) :: rrest, ∀ t ∈ r,
                  t.values.length = (TimeStep.values s0).length := by
                intro r hr t ht
                have hmm := (List.all_eq_true.mp htrue) _
                  (by
                    rw [← List.map_cons, ← List.map_cons]
                    exact List.mem_map_of_mem _ hr)
                have := (List.all_eq_true.mp hmm) _
                  (List.mem_map_of_mem TimeStep.values ht)
                rwa [beq_iff_eq] at this
              exact hne (by rw [hF r1 h1 t1 ht1, hF r2 h2 t2 ht2])
      · rw [torchTensor3_err1 _ _ _ (Bool.eq_false_iff.mpr hall)]
  rw [pack_time_series, hv, except_bind_error]

/-- Witness for C6: two sequences with T = 3 and T = 4 make the packer
fail with the shape-mismatch error. -/
theorem c6_shape_mismatch_witness :
    ((∃ r1 ∈ [List.replicate 3 ts0, List.replicate 4 ts0], ∃ r2 ∈
        [List.replicate 3 ts0, List.replicate 4 ts0],
        r1.length ≠ r2.length) ∨
      (∃ r1 ∈ [List.replicate 3 ts0, List.replicate 4 ts0], ∃ t1 ∈ r1,
        ∃ r2 ∈ [List.replicate 3 ts0, List.replicate 4 ts0], ∃ t2 ∈ r2,
        t1.values.length ≠ t2.values.length)) ∧
    pack_time_series [List.replicate 3 ts0, List.replicate 4 ts0]
      = .error "ShapeMismatchError" :=
  ⟨by decide,
   c6_shape_mismatch [List.replicate 3 ts0, List.replicate 4 ts0]
     (by decide)⟩
